import Mathlib

/-!
Shallow embedding of `TorchDynamicShardInferenceEngine`
(src/exo/inference/torch/pt_inference.py) and proofs of the spec's claims
about it.

The engine's mutable instance state (`self.shard`, `self.request_id`,
`self.past_tokens`, `self.tokenizer`, `self.sharded_model`) is modelled as an
explicit `EngineState` record threaded through each operation.  External
collaborators (the shard downloader, config loader, tokenizer constructors,
model constructor and weight loader) are modelled as `Except`-valued oracle
functions gathered in a `Collab` record; the shard-local model's `generate`
method is an oracle parameter of `infer_tensor`.  A Python exception raised
by a step is the `.error` branch; Python field assignments executed before a
raising step remain visible in the returned state, exactly as in CPython.
-/

/-- Error taxonomy for the collaborator calls and the engine itself. -/
inductive Err where
  | shardUnavailable
  | configLoadFailure
  | tokenizerFailure
  | modelBuildFailure
  | weightLoadFailure
  | inferenceFailure
  /-- Python `AttributeError` (e.g. a coroutine object has no `numpy`). -/
  | attributeError (attr : String)
deriving DecidableEq, Repr

/-- `exo.inference.shard.Shard`: a model identifier plus a contiguous layer
range.  Python dataclass equality is value equality, mirrored by
`DecidableEq`. -/
structure Shard where
  model_id : String
  start_layer : Nat
  end_layer : Nat
  n_layers : Nat
deriving DecidableEq, Repr

/-- Handle for a constructed `ShardedLlamaModel`; `weightsLoaded` records
whether `load_model_weights_torchtune` has completed on it. -/
structure ModelHandle where
  config : Nat
  shard : Shard
  weightsLoaded : Bool
deriving DecidableEq, Repr

/-- The engine instance fields set in `__init__` and mutated by
`ensure_shard` / `infer_tensor`.  `none` is Python `None`; tokenizer and
model handles are opaque (`Nat` ids / `ModelHandle`). -/
structure EngineState where
  shard : Option Shard
  request_id : Option String
  past_tokens : Option (List Int)
  tokenizer : Option Nat
  sharded_model : Option ModelHandle
  use_llama_tokenizer : Bool
deriving DecidableEq, Repr

/-- Fresh engine state as produced by `__init__`. -/
def initEngine : EngineState :=
  { shard := none, request_id := none, past_tokens := none,
    tokenizer := none, sharded_model := none, use_llama_tokenizer := false }

/-- The external collaborators used by `ensure_shard`, each a fallible
oracle. -/
structure Collab where
  /-- `self.shard_downloader.ensure_shard(shard, self.__class__.__name__)` →
  local model path. -/
  downloader_ensure_shard : Shard → String → Except Err String
  /-- `load_model_config(model_path / "config.json")`. -/
  load_model_config : String → Except Err Nat
  /-- `llama3.llama3_tokenizer(path=...)`. -/
  llama3_tokenizer : String → Except Err Nat
  /-- `_resolve_tokenizer(model_path)`. -/
  resolve_tokenizer : String → Except Err Nat
  /-- `ShardedLlamaModel(config=..., shard=..., device=..., use_cache=False)`. -/
  build_sharded_model : Nat → Shard → Except Err ModelHandle
  /-- `load_model_weights_torchtune(model_path, shard, self.sharded_model)`;
  returns the handle with weights loaded. -/
  load_model_weights : String → Shard → ModelHandle → Except Err ModelHandle

/-- Result of one `ensure_shard` call: the engine state after the call, the
normal/exceptional outcome, and how many times the downloader collaborator
was invoked (the spec's "collaborator call counter"). -/
structure EnsureResult where
  state : EngineState
  result : Except Err Unit
  downloader_calls : Nat
deriving Repr

/-- `TorchDynamicShardInferenceEngine.ensure_shard` (pt_inference.py
lines 140-185), translated statement by statement.  Note the source assigns
`self.shard = shard` *before* calling the downloader, assigns
`self.tokenizer` after config load, and assigns `self.sharded_model` after
construction but before weight loading; each assignment survives a later
exception. -/
def ensure_shard (C : Collab) (s : EngineState) (shard : Shard) : EnsureResult :=
  -- `if self.shard == shard: return`
  if s.shard = some shard then ⟨s, .ok (), 0⟩
  else
    -- `self.shard = shard`
    let s := { s with shard := some shard }
    match C.downloader_ensure_shard shard "TorchDynamicShardInferenceEngine" with
    | .error e => ⟨s, .error e, 1⟩
    | .ok model_path =>
      match C.load_model_config (model_path ++ "/config.json") with
      | .error e => ⟨s, .error e, 1⟩
      | .ok model_config =>
        match
          if s.use_llama_tokenizer then
            C.llama3_tokenizer (model_path ++ "/original/tokenizer.model")
          else
            C.resolve_tokenizer model_path with
        | .error e => ⟨s, .error e, 1⟩
        | .ok tok =>
          -- `self.tokenizer = ...`
          let s := { s with tokenizer := some tok }
          match C.build_sharded_model model_config shard with
          | .error e => ⟨s, .error e, 1⟩
          | .ok m =>
            -- `self.sharded_model = ...`
            let s := { s with sharded_model := some m }
            match C.load_model_weights model_path shard m with
            | .error e => ⟨s, .error e, 1⟩
            | .ok m2 => ⟨{ s with sharded_model := some m2 }, .ok (), 1⟩

/-- A concrete shard descriptor used in closed theorems. -/
def shardD : Shard := { model_id := "llama-3-8b", start_layer := 0, end_layer := 15, n_layers := 32 }

/-- Collaborators whose downloader always raises (the spec's downloader
failure stub); the remaining steps would succeed. -/
def failingDownloaderCollab : Collab :=
  { downloader_ensure_shard := fun _ _ => .error .shardUnavailable
    load_model_config := fun _ => .ok 0
    llama3_tokenizer := fun _ => .ok 0
    resolve_tokenizer := fun _ => .ok 0
    build_sharded_model := fun cfg sh => .ok ⟨cfg, sh, false⟩
    load_model_weights := fun _ _ m => .ok { m with weightsLoaded := true } }

/-- Collaborators for which every load step succeeds. -/
def okCollab : Collab :=
  { downloader_ensure_shard := fun _ _ => .ok "/models/llama-3-8b"
    load_model_config := fun _ => .ok 7
    llama3_tokenizer := fun _ => .ok 1
    resolve_tokenizer := fun _ => .ok 2
    build_sharded_model := fun cfg sh => .ok ⟨cfg, sh, false⟩
    load_model_weights := fun _ _ m => .ok { m with weightsLoaded := true } }

/-- A numpy/torch array: its shape and flattened integer payload (token
ids or opaque tensor contents; only shapes drive control flow). -/
structure NpArray where
  shape : List Nat
  data : List Int
deriving DecidableEq, Repr

/-- The pair returned by `self.sharded_model.generate(...)`: exactly one of
`model_hs` (interior shard) and `model_logits` (terminal shard) is non-None. -/
inductive GenResult where
  /-- `(model_hs, None)`: a hidden state to relay onward. -/
  | interior (model_hs : NpArray)
  /-- `(None, model_logits)`: logits for local sampling. -/
  | terminal (model_logits : NpArray)
deriving DecidableEq, Repr

/-- The oracle for the shard-local model's `generate` method. -/
def GenOracle : Type :=
  Option (List Int) → Option NpArray → Except Err GenResult

/-- The argument computation at pt_inference.py line 126-127:
`tokens=self.past_tokens if hidden_state is not None else None,
hidden_state=hidden_state`. -/
def generate_args (past_tokens : Option (List Int)) (hidden_state : Option NpArray) :
    Option (List Int) × Option NpArray :=
  (if hidden_state.isSome then past_tokens else none, hidden_state)

/-- A Python value as it flows through `infer_wrapper`: either a concrete
array or the coroutine object produced by calling an `async def` method
without `await`. -/
inductive PyVal where
  | arr (t : NpArray)
  | coroutine
deriving DecidableEq, Repr

/-- `self.sample(model_logits, TEMP, TOP_K)` inside `infer_wrapper`:
`sample` is `async def`, and the call is not awaited, so its value is a
coroutine object, not an array. -/
def sample_call_unawaited (_model_logits : NpArray) (_temp : Int) (_top_k : Nat) : PyVal :=
  .coroutine

/-- Attribute access `v.numpy(force=True)`: defined on arrays, raises
`AttributeError` on a coroutine object. -/
def pyNumpy : PyVal → Except Err NpArray
  | .arr t => .ok t
  | .coroutine => .error (.attributeError "numpy")

/-- `infer_wrapper` (pt_inference.py lines 124-136), the blocking closure
submitted to the executor.  `gen` is the `generate` oracle; `past_tokens`
and `hidden_state` are the instance field and local captured by the
closure. -/
def infer_wrapper (gen : GenOracle) (past_tokens : Option (List Int))
    (hidden_state : Option NpArray) : Except Err NpArray :=
  let args := generate_args past_tokens hidden_state
  match gen args.1 args.2 with
  | .error e => .error e
  | .ok (.interior model_hs) => .ok model_hs
  | .ok (.terminal model_logits) =>
    pyNumpy (sample_call_unawaited model_logits 0 0)

/-- Python truthiness of `self.request_id` (an optional string): `None` and
`""` are falsy. -/
def pyTruthyId : Option String → Bool
  | none => false
  | some s => !s.isEmpty

/-- Result of one `infer_tensor` call. -/
structure InferResult where
  state : EngineState
  result : Except Err NpArray
deriving Repr

/-- `TorchDynamicShardInferenceEngine.infer_tensor` (pt_inference.py lines
97-138), translated statement by statement: ensure shard, record
`request_id` first-write-wins under Python truthiness, classify the input
shape ((1,1) token vs rank-3 hidden state, anything else falling through
with neither), append token input to `past_tokens`, then run
`infer_wrapper` on the executor. -/
def infer_tensor (C : Collab) (gen : GenOracle) (s : EngineState)
    (request_id : String) (shard : Shard) (input_data : NpArray) : InferResult :=
  match (ensure_shard C s shard).result, (ensure_shard C s shard).state with
  | .error e, s1 => ⟨s1, .error e⟩
  | .ok _, s1 =>
    -- `self.request_id = request_id if not self.request_id else self.request_id`
    let rid := if pyTruthyId s1.request_id then s1.request_id else some request_id
    let s2 := { s1 with request_id := rid }
    if input_data.shape = [1, 1] then
      -- append the single token to `self.past_tokens` (torch.cat / clone)
      let tok := input_data.data.headD 0
      let newPast :=
        match s2.past_tokens with
        | some ts => some (ts ++ [tok])
        | none => some [tok]
      let s3 := { s2 with past_tokens := newPast }
      ⟨s3, infer_wrapper gen s3.past_tokens none⟩
    else if input_data.shape.length = 3 then
      ⟨s2, infer_wrapper gen s2.past_tokens (some input_data)⟩
    else
      ⟨s2, infer_wrapper gen s2.past_tokens none⟩

/-- N consecutive `infer_tensor` calls, each supplying one `(1,1)` token. -/
def run_token_steps (C : Collab) (gen : GenOracle) (s : EngineState)
    (request_id : String) (shard : Shard) (toks : List Int) : EngineState :=
  toks.foldl
    (fun st t => (infer_tensor C gen st request_id shard ⟨[1, 1], [t]⟩).state) s

/-- `TEMP = 0.6` (pt_inference.py line 28). -/
def TEMP : ℚ := 3 / 5

/-- `TOP_K = 25` (pt_inference.py line 29). -/
def TOP_K : Nat := 25

/-- `j` precedes `i` in the descending-value order on positions of `v`
(value strictly larger, or equal value and smaller index). -/
def beats (v : List ℚ) (j i : Nat) : Bool :=
  decide (v.getD i 0 < v.getD j 0) || (decide (v.getD j 0 = v.getD i 0) && decide (j < i))

/-- Number of positions of `v` strictly preceding position `i` in the
descending-value order. -/
def scaledRank (v : List ℚ) (i : Nat) : Nat :=
  ((List.range v.length).filter (fun j => beats v j i)).length

/-- The positions of the `k` largest entries of `v` (in index order): those
preceded by fewer than `k` positions. -/
def topKCandidates (v : List ℚ) (k : Nat) : List Nat :=
  (List.range v.length).filter (fun i => decide (scaledRank v i < k))

/-- Modelled from the spec: the external numeric sampling primitive
`torchtune.generation.sample`, absent from src/.  Per the spec it "applies
temperature scaling then restricts candidate selection to the top-K
highest-probability vocabulary entries before drawing one token"; `pick`
abstracts the external random source driving the draw. -/
def tt_sample (logits : List ℚ) (temperature : ℚ) (top_k : Nat) (pick : Nat) : Option Nat :=
  let scaled := logits.map (· / temperature)
  let cands := topKCandidates scaled top_k
  cands[pick % cands.length]?

/-- `TorchDynamicShardInferenceEngine.sample` (pt_inference.py lines
83-95): `logits = x[:, -1]` keeps only the final-position logits of each
batch row, then the torchtune primitive is applied.  The batch `x` is
(batch, position, vocab); no validation of `temp` or `top_k` is performed
before delegating. -/
def sample (x : List (List (List ℚ))) (temp : ℚ) (top_k : Nat) (pick : Nat) :
    List (Option Nat) :=
  let logits := x.map (fun row => row.getLastD [])
  logits.map (fun v => tt_sample v temp top_k pick)

/-- First index of the maximum entry of `v` (0 on the empty list); proof
device for characterising `topKCandidates _ 1`. -/
def firstArgmax : List ℚ → Nat
  | [] => 0
  | x :: xs =>
    if xs = [] then 0
    else if x < xs.getD (firstArgmax xs) 0 then firstArgmax xs + 1 else 0

deriving instance DecidableEq for Except

/-- A `generate` oracle that reports which arguments reached the model: the
returned shape is `[tokens?, hidden?]` with 1 for a supplied argument and 0
for Python `None`. -/
def probeGen : GenOracle := fun toks hs =>
  .ok (.interior ⟨[if toks.isSome then 1 else 0, if hs.isSome then 1 else 0], []⟩)

/-- A `generate` oracle for an interior shard: always returns a hidden
state. -/
def hsGen : GenOracle := fun _ _ => .ok (.interior ⟨[9], [0]⟩)

/-- A `generate` oracle for a terminal shard: always returns logits. -/
def logitsGen : GenOracle := fun _ _ => .ok (.terminal ⟨[1, 3], [10, 20, 30]⟩)

/-- A `generate` oracle whose forward pass always raises. -/
def failGen : GenOracle := fun _ _ => .error .inferenceFailure

/-- Engine state after one fully successful `ensure_shard` of `shardD` on a
fresh engine. -/
def loadedState : EngineState := (ensure_shard okCollab initEngine shardD).state

theorem ensure_shard_sets_shard (C : Collab) (s : EngineState) (sh : Shard) :
    (ensure_shard C s sh).state.shard = some sh := by
  unfold ensure_shard
  by_cases h : s.shard = some sh
  · simp [h]
  · simp only [h, if_false]
    cases C.downloader_ensure_shard sh "TorchDynamicShardInferenceEngine" with
    | error e => rfl
    | ok mp =>
      simp only
      cases C.load_model_config (mp ++ "/config.json") with
      | error e => rfl
      | ok cfg =>
        simp only
        cases htok : (if s.use_llama_tokenizer then
            C.llama3_tokenizer (mp ++ "/original/tokenizer.model")
          else C.resolve_tokenizer mp) with
        | error e => rfl
        | ok t =>
          simp only
          cases C.build_sharded_model cfg sh with
          | error e => rfl
          | ok m =>
            simp only
            cases C.load_model_weights mp sh m with
            | error e => rfl
            | ok m2 => rfl

theorem getD_map_div (v : List ℚ) (t : ℚ) (j : Nat) :
    (v.map (· / t)).getD j 0 = v.getD j 0 / t := by
  induction v generalizing j with
  | nil => simp [List.getD]
  | cons x xs ih =>
    cases j with
    | zero => simp
    | succ n => simpa using ih n

theorem div_same_eq_iff (a b t : ℚ) (ht : 0 < t) : a / t = b / t ↔ a = b := by
  constructor
  · intro h
    have h2 := congrArg (· * t) h
    simpa [div_mul_cancel₀, ht.ne'] using h2
  · intro h; rw [h]

theorem beats_eq_true_iff (v : List ℚ) (j i : Nat) :
    beats v j i = true ↔
      v.getD i 0 < v.getD j 0 ∨ (v.getD j 0 = v.getD i 0 ∧ j < i) := by
  unfold beats
  rw [Bool.or_eq_true, Bool.and_eq_true, decide_eq_true_eq, decide_eq_true_eq,
    decide_eq_true_eq]

theorem beats_scale (v : List ℚ) (t : ℚ) (ht : 0 < t) (j i : Nat) :
    beats (v.map (· / t)) j i = beats v j i := by
  simp only [beats, getD_map_div]
  rw [decide_eq_decide.mpr (div_lt_div_iff_of_pos_right ht),
    decide_eq_decide.mpr (div_same_eq_iff (v.getD j 0) (v.getD i 0) t ht)]

theorem scaledRank_scale (v : List ℚ) (t : ℚ) (ht : 0 < t) (i : Nat) :
    scaledRank (v.map (· / t)) i = scaledRank v i := by
  unfold scaledRank
  rw [List.length_map]
  congr 1
  apply List.filter_congr
  intro j _
  rw [beats_scale v t ht j i]

theorem topKCandidates_scale (v : List ℚ) (t : ℚ) (ht : 0 < t) (k : Nat) :
    topKCandidates (v.map (· / t)) k = topKCandidates v k := by
  unfold topKCandidates
  rw [List.length_map]
  apply List.filter_congr
  intro i _
  rw [scaledRank_scale v t ht i]

theorem firstArgmax_lt_length (v : List ℚ) (hv : v ≠ []) : firstArgmax v < v.length := by
  induction v with
  | nil => exact absurd rfl hv
  | cons x xs ih =>
    unfold firstArgmax
    by_cases hxs : xs = []
    · simp [hxs]
    · simp only [hxs, if_false]
      by_cases hlt : x < xs.getD (firstArgmax xs) 0
      · have := ih hxs
        simp only [hlt, if_true, List.length_cons]
        omega
      · rw [if_neg hlt]
        simp

theorem firstArgmax_max (v : List ℚ) (j : Nat) (hj : j < v.length) :
    v.getD j 0 ≤ v.getD (firstArgmax v) 0 := by
  induction v generalizing j with
  | nil => simp at hj
  | cons x xs ih =>
    unfold firstArgmax
    by_cases hxs : xs = []
    · subst hxs
      simp at hj
      subst hj
      simp
    · simp only [hxs, if_false]
      by_cases hlt : x < xs.getD (firstArgmax xs) 0
      · simp only [hlt, if_true]
        cases j with
        | zero =>
          rw [List.getD_cons_zero, List.getD_cons_succ]
          exact le_of_lt hlt
        | succ n =>
          rw [List.getD_cons_succ, List.getD_cons_succ]
          exact ih n (by simpa using hj)
      · push_neg at hlt
        rw [if_neg (not_lt.mpr hlt)]
        cases j with
        | zero => simp
        | succ n =>
          rw [List.getD_cons_succ, List.getD_cons_zero]
          exact le_trans (ih n (by simpa using hj)) hlt

theorem firstArgmax_first (v : List ℚ) (j : Nat) (hj : j < firstArgmax v) :
    v.getD j 0 < v.getD (firstArgmax v) 0 := by
  induction v generalizing j with
  | nil => simp [firstArgmax] at hj
  | cons x xs ih =>
    unfold firstArgmax at hj ⊢
    by_cases hxs : xs = []
    · simp [hxs] at hj
    · simp only [hxs, if_false] at hj ⊢
      by_cases hlt : x < xs.getD (firstArgmax xs) 0
      · simp only [hlt, if_true] at hj ⊢
        cases j with
        | zero =>
          rw [List.getD_cons_zero, List.getD_cons_succ]
          exact hlt
        | succ n =>
          rw [List.getD_cons_succ, List.getD_cons_succ]
          exact ih n (by omega)
      · rw [if_neg hlt] at hj
        omega

theorem not_beats_firstArgmax (v : List ℚ) (j : Nat) (hj : j < v.length) :
    ¬ beats v j (firstArgmax v) = true := by
  intro h
  unfold beats at h
  rw [Bool.or_eq_true, Bool.and_eq_true] at h
  rcases h with h | ⟨h1, h2⟩
  · exact absurd (of_decide_eq_true h) (not_lt.mpr (firstArgmax_max v j hj))
  · exact absurd (of_decide_eq_true h1)
      (ne_of_lt (firstArgmax_first v j (of_decide_eq_true h2)))

theorem scaledRank_firstArgmax (v : List ℚ) : scaledRank v (firstArgmax v) = 0 := by
  unfold scaledRank
  rw [List.length_eq_zero, List.filter_eq_nil_iff]
  intro j hj
  exact not_beats_firstArgmax v j (List.mem_range.mp hj)

theorem rank_zero_unique (v : List ℚ) (i i' : Nat) (hi : i < v.length) (hi' : i' < v.length)
    (h : scaledRank v i = 0) (h' : scaledRank v i' = 0) : i = i' := by
  by_contra hne
  unfold scaledRank at h h'
  rw [List.length_eq_zero, List.filter_eq_nil_iff] at h h'
  rcases lt_trichotomy (v.getD i 0) (v.getD i' 0) with hv | hv | hv
  · exact h i' (List.mem_range.mpr hi') ((beats_eq_true_iff v i' i).mpr (Or.inl hv))
  · rcases Nat.lt_or_ge i i' with hii | hii
    · exact h' i (List.mem_range.mpr hi) ((beats_eq_true_iff v i i').mpr (Or.inr ⟨hv, hii⟩))
    · have hii' : i' < i := by omega
      exact h i' (List.mem_range.mpr hi')
        ((beats_eq_true_iff v i' i).mpr (Or.inr ⟨hv.symm, hii'⟩))
  · exact h' i (List.mem_range.mpr hi) ((beats_eq_true_iff v i i').mpr (Or.inl hv))

theorem nodup_all_eq_singleton (l : List Nat) (a : Nat) (hn : l.Nodup) (ha : a ∈ l)
    (hall : ∀ b ∈ l, b = a) : l = [a] := by
  cases l with
  | nil => simp at ha
  | cons x xs =>
    have hx : x = a := hall x (by simp)
    cases xs with
    | nil => simp [hx]
    | cons y ys =>
      have hy : y = a := hall y (by simp)
      rw [List.nodup_cons] at hn
      have hmem : x ∈ y :: ys := by
        rw [hx, ← hy]
        exact List.mem_cons_self y ys
      exact absurd hmem hn.1

theorem topKCandidates_one (v : List ℚ) (hv : v ≠ []) :
    topKCandidates v 1 = [firstArgmax v] := by
  apply nodup_all_eq_singleton
  · exact List.Nodup.filter _ (List.nodup_range _)
  · unfold topKCandidates
    rw [List.mem_filter]
    refine ⟨List.mem_range.mpr (firstArgmax_lt_length v hv), ?_⟩
    simp [scaledRank_firstArgmax v]
  · intro b hb
    unfold topKCandidates at hb
    rw [List.mem_filter, List.mem_range] at hb
    obtain ⟨hb1, hb2⟩ := hb
    have hb3 : scaledRank v b = 0 := by
      have := of_decide_eq_true hb2
      omega
    exact rank_zero_unique v b (firstArgmax v) hb1 (firstArgmax_lt_length v hv) hb3
      (scaledRank_firstArgmax v)

theorem tt_sample_one (v : List ℚ) (t : ℚ) (ht : 0 < t) (hv : v ≠ []) (pick : Nat) :
    tt_sample v t 1 pick = some (firstArgmax v) := by
  simp only [tt_sample]
  rw [topKCandidates_scale v t ht 1, topKCandidates_one v hv]
  simp [Nat.mod_one]

theorem tt_sample_total (v : List ℚ) (t : ℚ) (k pick : Nat) (hk : 0 < k) (hv : v ≠ []) :
    ∃ i, tt_sample v t k pick = some i ∧ i < v.length := by
  simp only [tt_sample]
  have hwne : v.map (· / t) ≠ [] := by
    rw [ne_eq, List.map_eq_nil_iff]
    exact hv
  have hmem : firstArgmax (v.map (· / t)) ∈ topKCandidates (v.map (· / t)) k := by
    unfold topKCandidates
    rw [List.mem_filter]
    refine ⟨List.mem_range.mpr (firstArgmax_lt_length _ hwne), ?_⟩
    rw [decide_eq_true_eq, scaledRank_firstArgmax]
    exact hk
  have hlen : 0 < (topKCandidates (v.map (· / t)) k).length := by
    rw [List.length_pos]
    intro hnil
    rw [hnil] at hmem
    simp at hmem
  have hidx := Nat.mod_lt pick hlen
  refine ⟨(topKCandidates (v.map (· / t)) k)[pick % (topKCandidates (v.map (· / t)) k).length],
    List.getElem?_eq_getElem hidx, ?_⟩
  have hmem2 : (topKCandidates (v.map (· / t)) k)[pick % (topKCandidates (v.map (· / t)) k).length]
      ∈ topKCandidates (v.map (· / t)) k := List.getElem_mem hidx
  have hbound : ∀ x ∈ topKCandidates (v.map (· / t)) k, x < v.length := by
    intro x hx
    unfold topKCandidates at hx
    rw [List.mem_filter, List.mem_range, List.length_map] at hx
    exact hx.1
  exact hbound _ hmem2

theorem ensure_shard_fast (C : Collab) (s : EngineState) (sh : Shard)
    (h : s.shard = some sh) : ensure_shard C s sh = ⟨s, .ok (), 0⟩ := by
  unfold ensure_shard
  rw [if_pos h]

theorem ensure_shard_downloader_calls (C : Collab) (s : EngineState) (sh : Shard) :
    (ensure_shard C s sh).downloader_calls = if s.shard = some sh then 0 else 1 := by
  unfold ensure_shard
  by_cases h : s.shard = some sh
  · simp [h]
  · simp only [h, if_false]
    cases C.downloader_ensure_shard sh "TorchDynamicShardInferenceEngine" with
    | error e => rfl
    | ok mp =>
      simp only
      cases C.load_model_config (mp ++ "/config.json") with
      | error e => rfl
      | ok cfg =>
        simp only
        cases htok : (if s.use_llama_tokenizer then
            C.llama3_tokenizer (mp ++ "/original/tokenizer.model")
          else C.resolve_tokenizer mp) with
        | error e => rfl
        | ok t =>
          simp only
          cases C.build_sharded_model cfg sh with
          | error e => rfl
          | ok m =>
            simp only
            cases C.load_model_weights mp sh m with
            | error e => rfl
            | ok m2 => rfl

theorem infer_tensor_token_fast (C : Collab) (gen : GenOracle) (s : EngineState)
    (rid : String) (sh : Shard) (t : Int) (h : s.shard = some sh) :
    infer_tensor C gen s rid sh ⟨[1, 1], [t]⟩ =
      ⟨{ s with
          request_id := if pyTruthyId s.request_id then s.request_id else some rid,
          past_tokens := some (s.past_tokens.getD [] ++ [t]) },
        infer_wrapper gen (some (s.past_tokens.getD [] ++ [t])) none⟩ := by
  unfold infer_tensor
  rw [ensure_shard_fast C s sh h]
  cases hp : s.past_tokens with
  | none => simp [hp]
  | some ts => simp [hp]

theorem infer_tensor_rank3_fast (C : Collab) (gen : GenOracle) (s : EngineState)
    (rid : String) (sh : Shard) (input : NpArray) (h : s.shard = some sh)
    (h3 : input.shape.length = 3) :
    infer_tensor C gen s rid sh input =
      ⟨{ s with
          request_id := if pyTruthyId s.request_id then s.request_id else some rid },
        infer_wrapper gen s.past_tokens (some input)⟩ := by
  unfold infer_tensor
  rw [ensure_shard_fast C s sh h]
  have hne : input.shape ≠ [1, 1] := by
    intro hcon
    rw [hcon] at h3
    simp at h3
  simp [hne, h3]

theorem infer_tensor_other_fast (C : Collab) (gen : GenOracle) (s : EngineState)
    (rid : String) (sh : Shard) (input : NpArray) (h : s.shard = some sh)
    (hne : input.shape ≠ [1, 1]) (h3 : input.shape.length ≠ 3) :
    infer_tensor C gen s rid sh input =
      ⟨{ s with
          request_id := if pyTruthyId s.request_id then s.request_id else some rid },
        infer_wrapper gen s.past_tokens none⟩ := by
  unfold infer_tensor
  rw [ensure_shard_fast C s sh h]
  simp [hne, h3]

theorem run_token_steps_append (C : Collab) (gen : GenOracle) (rid : String) (sh : Shard) :
    ∀ (toks : List Int) (s : EngineState), s.shard = some sh →
      (run_token_steps C gen s rid sh toks).past_tokens.getD []
          = s.past_tokens.getD [] ++ toks ∧
      (run_token_steps C gen s rid sh toks).shard = some sh
  | [], s, h => by simp [run_token_steps, h]
  | t :: ts, s, h => by
    simp only [run_token_steps, List.foldl_cons]
    rw [infer_tensor_token_fast C gen s rid sh t h]
    have hrec := run_token_steps_append C gen rid sh ts
      { s with
        request_id := if pyTruthyId s.request_id then s.request_id else some rid,
        past_tokens := some (s.past_tokens.getD [] ++ [t]) } h
    simp only [run_token_steps] at hrec
    obtain ⟨h1, h2⟩ := hrec
    refine ⟨?_, h2⟩
    rw [h1]
    simp

/-- C1: the claim says a downloader failure in `ensureShard` leaves the
stored shard state "none", with descriptor/model/tokenizer replaced only
after every step succeeds.  The code instead assigns `self.shard = shard`
before invoking the downloader: after the failure the stored descriptor is
the new shard (not "none") while no model is loaded, and a retry with the
same descriptor is skipped entirely (0 downloader calls). -/
theorem c1_downloader_failure_commits_shard_descriptor :
    (ensure_shard failingDownloaderCollab initEngine shardD).result
        = .error .shardUnavailable ∧
    (ensure_shard failingDownloaderCollab initEngine shardD).state.shard = some shardD ∧
    (ensure_shard failingDownloaderCollab initEngine shardD).state.sharded_model = none ∧
    (ensure_shard failingDownloaderCollab
        (ensure_shard failingDownloaderCollab initEngine shardD).state
        shardD).downloader_calls = 0 := by
  decide

/-- C2: the claim says a (1,1) input runs the model on the full accumulated
token sequence with no hidden state, and a rank-3 input runs it on the
hidden state with no token history.  The conditional at line 126
(`tokens=self.past_tokens if hidden_state is not None else None`) is
inverted: with prior history [3] and token input [[7]], `generate` receives
tokens=None and hidden_state=None (probe reports [0,0]); with a rank-3
input it receives the token history together with the hidden state (probe
reports [1,1]). -/
theorem c2_generate_arguments_swapped :
    (infer_tensor okCollab probeGen
        { loadedState with past_tokens := some [3] } "r1" shardD
        ⟨[1, 1], [7]⟩).result = .ok ⟨[0, 0], []⟩ ∧
    (infer_tensor okCollab probeGen
        { loadedState with past_tokens := some [3] } "r1" shardD
        ⟨[1, 1, 4], [0, 0, 0, 0]⟩).result = .ok ⟨[1, 1], []⟩ := by
  decide

/-- C3: the claim says that when the model returns logits, the Sampler runs
synchronously inside the blocking submission and the call returns the
sampled token id.  In the code `infer_wrapper` calls the `async def`
method `self.sample` without awaiting it, so `token` is a coroutine object
and `token.numpy(force=True)` raises `AttributeError`; no token is ever
returned on the logits path. -/
theorem c3_logits_path_raises_attribute_error :
    (infer_tensor okCollab logitsGen loadedState "r1" shardD ⟨[1, 1], [7]⟩).result
      = .error (.attributeError "numpy") := by
  decide

/-- C4: after N consecutive single-token `infer_tensor` calls on a fresh
session, the accumulated token sequence equals exactly those N tokens in
order (hence has length N); further single-token calls only append to it,
so every earlier accumulated sequence stays a prefix and nothing is ever
truncated. -/
theorem c4_token_accumulation_append_only (C : Collab) (gen : GenOracle)
    (s : EngineState) (rid : String) (sh : Shard) (toks : List Int)
    (h1 : s.shard = some sh) (h2 : s.past_tokens = none) :
    (run_token_steps C gen s rid sh toks).past_tokens.getD [] = toks ∧
    ((run_token_steps C gen s rid sh toks).past_tokens.getD []).length = toks.length ∧
    ∀ more : List Int,
      (run_token_steps C gen (run_token_steps C gen s rid sh toks) rid sh
          more).past_tokens.getD [] = toks ++ more := by
  have hmain := run_token_steps_append C gen rid sh toks s h1
  have hfirst : (run_token_steps C gen s rid sh toks).past_tokens.getD [] = toks := by
    rw [hmain.1, h2]
    simp
  refine ⟨hfirst, by rw [hfirst], ?_⟩
  intro more
  have hnext := run_token_steps_append C gen rid sh more _ hmain.2
  rw [hnext.1, hfirst]

/-- C4 witness: three single-token calls accumulate [3, 5, 7]; one more
call extends it to [3, 5, 7, 9]. -/
theorem c4_token_accumulation_append_only_witness :
    (run_token_steps okCollab hsGen loadedState "r" shardD [3, 5, 7]).past_tokens.getD []
        = [3, 5, 7] ∧
    (run_token_steps okCollab hsGen
        (run_token_steps okCollab hsGen loadedState "r" shardD [3, 5, 7]) "r" shardD
        [9]).past_tokens.getD [] = [3, 5, 7, 9] :=
  ⟨(c4_token_accumulation_append_only okCollab hsGen loadedState "r" shardD [3, 5, 7]
      (by decide) (by decide)).1,
   (c4_token_accumulation_append_only okCollab hsGen loadedState "r" shardD [3, 5, 7]
      (by decide) (by decide)).2.2 [9]⟩

/-- C5: `ensure_shard` is idempotent on an unchanged descriptor: the second
of two calls with the same descriptor finds the stored descriptor equal and
returns at once (state unchanged, no downloader call); and the downloader
work is performed exactly when the requested descriptor differs from the
stored one — including the very first call, where the stored descriptor is
"none". -/
theorem c5_ensure_shard_idempotent (C : Collab) (s : EngineState) (sh : Shard) :
    ensure_shard C (ensure_shard C s sh).state sh
        = ⟨(ensure_shard C s sh).state, .ok (), 0⟩ ∧
    ((ensure_shard C s sh).downloader_calls = 1 ↔ s.shard ≠ some sh) := by
  refine ⟨ensure_shard_fast C _ sh (ensure_shard_sets_shard C s sh), ?_⟩
  rw [ensure_shard_downloader_calls]
  by_cases h : s.shard = some sh
  · simp [h]
  · simp [h]

/-- C5 witness: on a fresh engine the first load of `shardD` performs the
downloader call and the second call is a no-op. -/
theorem c5_ensure_shard_idempotent_witness :
    ensure_shard okCollab (ensure_shard okCollab initEngine shardD).state shardD
        = ⟨(ensure_shard okCollab initEngine shardD).state, .ok (), 0⟩ ∧
    ((ensure_shard okCollab initEngine shardD).downloader_calls = 1 ↔
      initEngine.shard ≠ some shardD) :=
  c5_ensure_shard_idempotent okCollab initEngine shardD

theorem infer_tensor_token_any (C : Collab) (gen : GenOracle) (s : EngineState)
    (rid : String) (sh : Shard) (dat : List Int) (h : s.shard = some sh) :
    infer_tensor C gen s rid sh ⟨[1, 1], dat⟩ =
      ⟨{ s with
          request_id := if pyTruthyId s.request_id then s.request_id else some rid,
          past_tokens := some (s.past_tokens.getD [] ++ [dat.headD 0]) },
        infer_wrapper gen (some (s.past_tokens.getD [] ++ [dat.headD 0])) none⟩ := by
  unfold infer_tensor
  rw [ensure_shard_fast C s sh h]
  cases hp : s.past_tokens with
  | none => simp [hp]
  | some ts => simp [hp]

theorem infer_tensor_request_id (C : Collab) (gen : GenOracle) (s : EngineState)
    (rid : String) (sh : Shard) (input : NpArray) (h : s.shard = some sh) :
    (infer_tensor C gen s rid sh input).state.request_id
      = if pyTruthyId s.request_id then s.request_id else some rid := by
  unfold infer_tensor
  rw [ensure_shard_fast C s sh h]
  by_cases h1 : input.shape = [1, 1]
  · cases hp : s.past_tokens with
    | none => simp [h1, hp]
    | some ts => simp [h1, hp]
  · by_cases h3 : input.shape.length = 3
    · simp [h1, h3]
    · simp [h1, h3]

/-- C6 counterexample: an input of shape (2,2) — neither (1,1) nor rank-3 —
is not rejected with an error: the call is processed and returns the model
output. -/
theorem c6_counterexample_other_shape_not_rejected :
    (infer_tensor okCollab hsGen loadedState "r1" shardD
        ⟨[2, 2], [1, 2, 3, 4]⟩).result = .ok ⟨[9], [0]⟩ := by
  decide

/-- C6 (amended): a (1,1) input always takes the token path (append and
submit with no hidden state) and a rank-3 input always takes the
hidden-state path; an input of any other shape is not rejected — it is
processed with neither: no token is appended, no hidden state is set, and
the forward pass is still submitted. -/
theorem c6_amended_shape_dispatch (C : Collab) (gen : GenOracle) (s : EngineState)
    (rid : String) (sh : Shard) (input : NpArray) (h : s.shard = some sh) :
    (input.shape = [1, 1] →
      (infer_tensor C gen s rid sh input).state.past_tokens
          = some (s.past_tokens.getD [] ++ [input.data.headD 0]) ∧
      (infer_tensor C gen s rid sh input).result
          = infer_wrapper gen (some (s.past_tokens.getD [] ++ [input.data.headD 0])) none) ∧
    (input.shape.length = 3 →
      (infer_tensor C gen s rid sh input).state.past_tokens = s.past_tokens ∧
      (infer_tensor C gen s rid sh input).result
          = infer_wrapper gen s.past_tokens (some input)) ∧
    (input.shape ≠ [1, 1] → input.shape.length ≠ 3 →
      (infer_tensor C gen s rid sh input).state.past_tokens = s.past_tokens ∧
      (infer_tensor C gen s rid sh input).result
          = infer_wrapper gen s.past_tokens none) := by
  obtain ⟨shp, dat⟩ := input
  refine ⟨?_, ?_, ?_⟩
  · intro h1
    change shp = [1, 1] at h1
    subst h1
    rw [infer_tensor_token_any C gen s rid sh dat h]
    exact ⟨rfl, rfl⟩
  · intro h3
    rw [infer_tensor_rank3_fast C gen s rid sh ⟨shp, dat⟩ h h3]
    exact ⟨rfl, rfl⟩
  · intro hne h3
    rw [infer_tensor_other_fast C gen s rid sh ⟨shp, dat⟩ h hne h3]
    exact ⟨rfl, rfl⟩

/-- C6 witness: instantiating the amended theorem's third branch at a
concrete (2,2) input. -/
theorem c6_amended_shape_dispatch_witness :
    (infer_tensor okCollab hsGen loadedState "r1" shardD
        ⟨[2, 2], [1, 2, 3, 4]⟩).state.past_tokens = loadedState.past_tokens ∧
    (infer_tensor okCollab hsGen loadedState "r1" shardD
        ⟨[2, 2], [1, 2, 3, 4]⟩).result
      = infer_wrapper hsGen loadedState.past_tokens none :=
  (c6_amended_shape_dispatch okCollab hsGen loadedState "r1" shardD
    ⟨[2, 2], [1, 2, 3, 4]⟩ (by decide)).2.2 (by decide) (by decide)

/-- C7: `sample` depends only on the final-position logits of each batch
row, and with top-K = 1 (and any positive temperature, including values
near zero) it returns the first arg-max index of those logits — the same
token for every value of the external random source. -/
theorem c7_sample_final_position_argmax
    (x y : List (List (List ℚ))) (row : List (List ℚ)) (v : List ℚ) (temp : ℚ)
    (k pick pick' : Nat)
    (hxy : x.map (fun r => r.getLastD []) = y.map (fun r => r.getLastD []))
    (hrow : row.getLastD [] = v) (ht : 0 < temp) (hv : v ≠ []) :
    sample x temp k pick = sample y temp k pick ∧
    sample [row] temp 1 pick = [some (firstArgmax v)] ∧
    sample [row] temp 1 pick' = [some (firstArgmax v)] ∧
    firstArgmax v < v.length ∧
    (∀ j, j < v.length → v.getD j 0 ≤ v.getD (firstArgmax v) 0) ∧
    (∀ j, j < firstArgmax v → v.getD j 0 < v.getD (firstArgmax v) 0) := by
  refine ⟨?_, ?_, ?_, firstArgmax_lt_length v hv,
    fun j hj => firstArgmax_max v j hj, fun j hj => firstArgmax_first v j hj⟩
  · simp only [sample]
    rw [hxy]
  · simp only [sample, List.map_cons, List.map_nil]
    rw [hrow, tt_sample_one v temp ht hv pick]
  · simp only [sample, List.map_cons, List.map_nil]
    rw [hrow, tt_sample_one v temp ht hv pick']

/-- C7 witness: two batches agreeing on their final position sample alike;
with top-K = 1 the argmax of [1, 5, 2] is returned for two different draws
of the random source. -/
theorem c7_sample_final_position_argmax_witness :
    sample [[[1, 2], [30, 40]]] 1 4 0 = sample [[[7, 8], [30, 40]]] 1 4 0 ∧
    sample [[[0], [1, 5, 2]]] 1 1 0 = [some (firstArgmax [1, 5, 2])] ∧
    sample [[[0], [1, 5, 2]]] 1 1 7 = [some (firstArgmax [1, 5, 2])] :=
  ⟨(c7_sample_final_position_argmax [[[1, 2], [30, 40]]] [[[7, 8], [30, 40]]]
      [[0], [1, 5, 2]] [1, 5, 2] 1 4 0 7 rfl rfl one_pos (by decide)).1,
   (c7_sample_final_position_argmax [[[1, 2], [30, 40]]] [[[7, 8], [30, 40]]]
      [[0], [1, 5, 2]] [1, 5, 2] 1 4 0 7 rfl rfl one_pos (by decide)).2.1,
   (c7_sample_final_position_argmax [[[1, 2], [30, 40]]] [[[7, 8], [30, 40]]]
      [[0], [1, 5, 2]] [1, 5, 2] 1 4 0 7 rfl rfl one_pos (by decide)).2.2.1⟩

/-- C8 counterexample: the claim says every call after the first leaves the
already-recorded identifier unchanged, regardless of the value passed.  The
code tests Python truthiness, not presence: a first call passing the empty
string records "", and the next call overwrites it with "r2". -/
theorem c8_counterexample_empty_id_overwritten :
    (infer_tensor okCollab hsGen loadedState "" shardD
        ⟨[1, 1], [7]⟩).state.request_id = some "" ∧
    (infer_tensor okCollab hsGen
        (infer_tensor okCollab hsGen loadedState "" shardD ⟨[1, 1], [7]⟩).state
        "r2" shardD ⟨[1, 1], [8]⟩).state.request_id = some "r2" := by
  decide

/-- C8 (amended): `infer_tensor` records the passed request identifier
whenever the stored one is falsy (unset or the empty string), and leaves a
stored non-empty identifier unchanged regardless of the value passed
(first-non-empty-write-wins). -/
theorem c8_amended_request_id_truthy_write (C : Collab) (gen : GenOracle)
    (s : EngineState) (rid : String) (sh : Shard) (input : NpArray)
    (h : s.shard = some sh) :
    ((s.request_id = none ∨ s.request_id = some "") →
      (infer_tensor C gen s rid sh input).state.request_id = some rid) ∧
    (∀ r : String, s.request_id = some r → r ≠ "" →
      (infer_tensor C gen s rid sh input).state.request_id = some r) := by
  constructor
  · intro hid
    rw [infer_tensor_request_id C gen s rid sh input h]
    have hemp : ("" : String).isEmpty = true := rfl
    rcases hid with hid | hid <;> rw [hid] <;> simp [pyTruthyId, hemp]
  · intro r hr hne
    rw [infer_tensor_request_id C gen s rid sh input h, hr]
    have hemp : r.isEmpty = false := by
      cases hcase : r.isEmpty with
      | false => rfl
      | true => exact absurd ((String.isEmpty_iff r).mp hcase) hne
    simp [pyTruthyId, hemp]

/-- C8 witness: a fresh session records "r1"; a session holding the
non-empty identifier "x" keeps it when "r2" is passed. -/
theorem c8_amended_request_id_truthy_write_witness :
    (infer_tensor okCollab hsGen loadedState "r1" shardD
        ⟨[1, 1], [7]⟩).state.request_id = some "r1" ∧
    (infer_tensor okCollab hsGen { loadedState with request_id := some "x" } "r2" shardD
        ⟨[1, 1], [7]⟩).state.request_id = some "x" :=
  ⟨(c8_amended_request_id_truthy_write okCollab hsGen loadedState "r1" shardD
      ⟨[1, 1], [7]⟩ (by decide)).1 (Or.inl (by decide)),
   (c8_amended_request_id_truthy_write okCollab hsGen
      { loadedState with request_id := some "x" } "r2" shardD
      ⟨[1, 1], [7]⟩ (by decide)).2 "x" rfl (by decide)⟩

/-- C9 counterexample: the claim says `sample` fails loudly when `topK`
exceeds the vocabulary size or `temperature` is non-positive.  The code
performs no validation: with temperature -1 and with top-K 5 on a
3-entry vocabulary it still returns a token id, not an error. -/
theorem c9_counterexample_no_validation :
    sample [[[9, 9, 9], [1, 5, 2]]] (-1) 1 0 = [some 0] ∧
    sample [[[9, 9, 9], [1, 5, 2]]] 1 5 0 = [some 0] := by
  constructor <;>
  · simp [sample, tt_sample, topKCandidates, scaledRank, beats, List.range,
      List.range.loop]
    norm_num

/-- C9 (amended): `sample` performs no validation of `temperature` or
`topK`: for every temperature (including non-positive values) and every
positive `topK` (including values exceeding the vocabulary size), the call
returns an in-range token id for the batch row and raises nothing. -/
theorem c9_amended_no_validation_passthrough (row : List (List ℚ)) (v : List ℚ)
    (t : ℚ) (k pick : Nat) (hrow : row.getLastD [] = v) (hk : 0 < k) (hv : v ≠ []) :
    ∃ i, sample [row] t k pick = [some i] ∧ i < v.length := by
  obtain ⟨i, hi, hlen⟩ := tt_sample_total v t k pick hk hv
  refine ⟨i, ?_, hlen⟩
  simp only [sample, List.map_cons, List.map_nil]
  rw [hrow, hi]

/-- C9 witness: temperature -1 and top-K 5 on a 3-entry vocabulary still
produce an in-range token. -/
theorem c9_amended_no_validation_passthrough_witness :
    ∃ i, sample [[[9, 9, 9], [1, 5, 2]]] (-1) 5 3 = [some i] ∧
      i < ([1, 5, 2] : List ℚ).length :=
  c9_amended_no_validation_passthrough [[9, 9, 9], [1, 5, 2]] [1, 5, 2] (-1) 5 3
    rfl (by decide) (by decide)

/-- C10: on a (1,1) input the token is appended to the accumulated sequence
before the blocking work is submitted; if the forward pass raises, the
error propagates but the appended token remains in the accumulated
sequence (no rollback). -/
theorem c10_token_appended_before_submission (C : Collab) (gen : GenOracle)
    (s : EngineState) (rid : String) (sh : Shard) (t : Int) (e : Err)
    (h : s.shard = some sh) (hg : ∀ a b, gen a b = .error e) :
    (infer_tensor C gen s rid sh ⟨[1, 1], [t]⟩).result = .error e ∧
    (infer_tensor C gen s rid sh ⟨[1, 1], [t]⟩).state.past_tokens
        = some (s.past_tokens.getD [] ++ [t]) := by
  rw [infer_tensor_token_fast C gen s rid sh t h]
  refine ⟨?_, rfl⟩
  simp [infer_wrapper, generate_args, hg]

/-- C10 witness: a failing forward pass propagates `inferenceFailure` while
the freshly appended token 7 stays in the accumulated sequence. -/
theorem c10_token_appended_before_submission_witness :
    (infer_tensor okCollab failGen loadedState "r1" shardD ⟨[1, 1], [7]⟩).result
        = .error .inferenceFailure ∧
    (infer_tensor okCollab failGen loadedState "r1" shardD
        ⟨[1, 1], [7]⟩).state.past_tokens
      = some (loadedState.past_tokens.getD [] ++ [7]) :=
  c10_token_appended_before_submission okCollab failGen loadedState "r1" shardD 7
    .inferenceFailure (by decide) (fun _ _ => rfl)
